import Mathlib

/-!
Shallow embedding of the dotfiles deployment, backup and recovery engine of
the goodbye repository (package internal/dotfiles: the import logic in
import.go and the backup/recovery logic in the backup file).

Filesystem state is modelled per path: a path maps to an optional node, where
a node is what a single os.Lstat call distinguishes — a regular file (byte
content and permission mode), a directory (opaque at this level; full trees
are modelled separately for the directory copier), or a symbolic link.
Filesystem mutations performed by the Go code are recorded as an explicit
trace of effects, one constructor per os call site, in the order the code
issues them.
-/

/-- A filesystem node as one os.Lstat call sees it: a regular file with byte
content and permission mode, a directory (opaque at this level), or a
symbolic link with its target. -/
inductive Node where
  | file (content : List Nat) (mode : Nat)
  | dirNode (mode : Nat)
  | symlinkNode (target : String)
  deriving Repr, DecidableEq

/-- info.Mode() and os.ModeSymlink is nonzero exactly for symbolic links. -/
def Node.isSymlinkNode : Node → Bool
  | .symlinkNode _ => true
  | _ => false

/-- info.IsDir() on an Lstat result: true exactly for directories (an Lstat
of a symbolic link reports the link itself, never a directory). -/
def Node.isDirNode : Node → Bool
  | .dirNode _ => true
  | _ => false

/-- A per-path view of the filesystem: which node, if any, an Lstat of the
path would report. -/
def FS : Type := String → Option Node

/-- One filesystem mutation, one constructor per os call site used by the
engine: os.Rename, os.Remove (non-recursive unlink or rmdir), os.RemoveAll
(recursive delete), os.MkdirAll, os.Symlink, copyFile, copyDirectory. -/
inductive Effect where
  | rename (a b : String)
  | remove (path : String)
  | removeAll (path : String)
  | mkdirAll (path : String)
  | symlinkTo (target linkPath : String)
  | copyFileTo (src dst : String)
  | copyDirTo (src dst : String)
  deriving Repr, DecidableEq

/-- methodName from import.go. -/
def methodName (symlink : Bool) : String :=
  if symlink then "symlink" else "copy"

/-- Characters of a path up to and including its last path separator; two
paths are siblings when this agrees, which models filepath.Dir agreement. -/
def dirData (l : List Char) : List Char :=
  (l.reverse.dropWhile (fun c => c ≠ '/')).reverse

/-- Parent-directory part of a path, modelling filepath.Dir for the sibling
relation. -/
def dirString (p : String) : String :=
  ⟨dirData p.data⟩

/-- A wall-clock instant as Go time fields. -/
structure GoTime where
  year : Nat
  month : Nat
  day : Nat
  hour : Nat
  minute : Nat
  second : Nat
  deriving Repr, DecidableEq

/-- Exactly w decimal digits of n, most significant first (n taken modulo
10^w, which coincides with zero-padding whenever n fits in w digits). -/
def natDigits : Nat → Nat → List Char
  | 0, _ => []
  | w + 1, n => natDigits w (n / 10) ++ [Char.ofNat (48 + n % 10)]

/-- time.Now().Format with Go layout 20060102150405: the six fields printed
as fixed-width zero-padded decimal, concatenated with no separators. Exact
for in-range field values (year below 10000, other fields below 100), which
every real clock reading satisfies. -/
def goTimestamp (t : GoTime) : String :=
  ⟨natDigits 4 t.year ++ natDigits 2 t.month ++ natDigits 2 t.day ++
    natDigits 2 t.hour ++ natDigits 2 t.minute ++ natDigits 2 t.second⟩

/-- The effect trace of importFile (import.go): Lstat the destination; if it
exists, either rename it to dst.backup.timestamp (backup enabled and not a
symlink) or os.Remove it; then MkdirAll the parent and create the symlink or
copy the file. -/
def importFileEffects (fs : FS) (src dst : String) (useSymlink useBackup : Bool)
    (now : GoTime) : List Effect :=
  (match fs dst with
   | some info =>
     if useBackup && !info.isSymlinkNode then
       [Effect.rename dst (dst ++ ".backup." ++ goTimestamp now)]
     else
       [Effect.remove dst]
   | none => []) ++
  [Effect.mkdirAll (dirString dst)] ++
  (if useSymlink then [Effect.symlinkTo src dst] else [Effect.copyFileTo src dst])

/-- The effect trace of importDirectory (import.go): as importFile, but a
pre-existing non-symlink destination with backup disabled is removed with
os.RemoveAll (a symlink with os.Remove), and copy mode copies the tree. -/
def importDirectoryEffects (fs : FS) (src dst : String) (useSymlink useBackup : Bool)
    (now : GoTime) : List Effect :=
  (match fs dst with
   | some info =>
     if useBackup && !info.isSymlinkNode then
       [Effect.rename dst (dst ++ ".backup." ++ goTimestamp now)]
     else if info.isSymlinkNode then
       [Effect.remove dst]
     else
       [Effect.removeAll dst]
   | none => []) ++
  [Effect.mkdirAll (dirString dst)] ++
  (if useSymlink then [Effect.symlinkTo src dst] else [Effect.copyDirTo src dst])

/-- The dry-run decision block of Import (import.go, used verbatim for both
the file-mapping loop and the directory-mapping loop): Lstat the destination
and predict the action string. -/
def dryRunAction (fs : FS) (dst : String) (useSymlink useBackup : Bool) : String :=
  match fs dst with
  | some info =>
    if info.isSymlinkNode then "replace symlink → " ++ methodName useSymlink
    else if useBackup then "backup & " ++ methodName useSymlink
    else "overwrite → " ++ methodName useSymlink
  | none => methodName useSymlink

/-- The deployment step: symlink creation or file copy. -/
def deployFileEffect (sym : Bool) (src dst : String) : Effect :=
  if sym then Effect.symlinkTo src dst else Effect.copyFileTo src dst

/-- The deployment step for a directory mapping: symlink creation or
directory-tree copy. -/
def deployDirEffect (sym : Bool) (src dst : String) : Effect :=
  if sym then Effect.symlinkTo src dst else Effect.copyDirTo src dst

/-- Modelled from the spec: the apply-mode effect trace that each dry-run
action string promises for a file mapping — replace symlink removes the link
then deploys, backup renames then deploys, overwrite removes then deploys, a
bare method string deploys onto an absent destination. -/
def specPromisedFileEffects (action : String) (src dst : String) (sym : Bool)
    (ts : String) : List Effect :=
  if action = "replace symlink → " ++ methodName sym then
    [Effect.remove dst, Effect.mkdirAll (dirString dst), deployFileEffect sym src dst]
  else if action = "backup & " ++ methodName sym then
    [Effect.rename dst (dst ++ ".backup." ++ ts), Effect.mkdirAll (dirString dst),
      deployFileEffect sym src dst]
  else if action = "overwrite → " ++ methodName sym then
    [Effect.remove dst, Effect.mkdirAll (dirString dst), deployFileEffect sym src dst]
  else
    [Effect.mkdirAll (dirString dst), deployFileEffect sym src dst]

/-- Modelled from the spec: the apply-mode effect trace that each dry-run
action string promises for a directory mapping — as the file version, except
overwrite is a recursive delete and copy mode copies the tree. -/
def specPromisedDirEffects (action : String) (src dst : String) (sym : Bool)
    (ts : String) : List Effect :=
  if action = "replace symlink → " ++ methodName sym then
    [Effect.remove dst, Effect.mkdirAll (dirString dst), deployDirEffect sym src dst]
  else if action = "backup & " ++ methodName sym then
    [Effect.rename dst (dst ++ ".backup." ++ ts), Effect.mkdirAll (dirString dst),
      deployDirEffect sym src dst]
  else if action = "overwrite → " ++ methodName sym then
    [Effect.removeAll dst, Effect.mkdirAll (dirString dst), deployDirEffect sym src dst]
  else
    [Effect.mkdirAll (dirString dst), deployDirEffect sym src dst]

/-- Semantics of one effect on the per-path filesystem view: rename moves the
node, the removal effects clear the path, MkdirAll ensures a directory,
symlink and copy create the destination node. -/
def applyEffect (fs : FS) : Effect → FS
  | .rename a b => fun p => if p = b then fs a else if p = a then none else fs p
  | .remove a => fun p => if p = a then none else fs p
  | .removeAll a => fun p => if p = a then none else fs p
  | .mkdirAll d => fun p =>
      if p = d then
        (match fs d with
         | some n => some n
         | none => some (Node.dirNode 493))
      else fs p
  | .symlinkTo target link => fun p => if p = link then some (Node.symlinkNode target) else fs p
  | .copyFileTo src dst => fun p => if p = dst then fs src else fs p
  | .copyDirTo src dst => fun p => if p = dst then fs src else fs p

/-- Run an effect trace in order against an oracle saying which os calls
succeed, aborting at the first failing call exactly as the Go code returns
on the first error: yields the final state, the effects actually applied,
and whether every call succeeded. -/
def runEffects (ok : Effect → Bool) : FS → List Effect → FS × List Effect × Bool
  | fs, [] => (fs, [], true)
  | fs, e :: rest =>
    if ok e then
      let r := runEffects ok (applyEffect fs e) rest
      (r.1, e :: r.2.1, r.2.2)
    else (fs, [], false)

/-- Per-mapping outcome of the Import loop: skipped with the recorded action
string, or applied with the effect trace the deployment issues. -/
inductive MappingOutcome where
  | skipped (reason : String)
  | applied (effects : List Effect)
  deriving Repr, DecidableEq

/-- The per-file-mapping step of Import (import.go): skip when os.Stat of
the source reports not-exist; otherwise (no source-kind check exists for
file mappings) proceed to importFile. -/
def importFileMapping (fs : FS) (src dst : String) (useSymlink useBackup : Bool)
    (now : GoTime) : MappingOutcome :=
  match fs src with
  | none => .skipped "skip (not found in repo)"
  | some _ => .applied (importFileEffects fs src dst useSymlink useBackup now)

/-- The per-directory-mapping step of Import (import.go): skip when os.Stat
of the source reports not-exist, skip with "not a directory" when the source
is not a directory, otherwise proceed to importDirectory. Faithful for
non-symlink sources (os.Stat follows links). -/
def importDirectoryMapping (fs : FS) (src dst : String) (useSymlink useBackup : Bool)
    (now : GoTime) : MappingOutcome :=
  match fs src with
  | none => .skipped "skip (not found in repo)"
  | some info =>
    if info.isDirNode then
      .applied (importDirectoryEffects fs src dst useSymlink useBackup now)
    else
      .skipped "skip (not a directory)"

/-- recoverFile (backup file): Lstat the destination; if present, RemoveAll
it when it is a directory and not a symlink, os.Remove it otherwise; then
os.Rename the backup onto the destination. The rename fails (as the os call
does) when the backup path holds no node. Returns the final state and the
trace of applied effects, or the tagged error. -/
def recoverFile (fs : FS) (backupPath dst : String) :
    Except String (FS × List Effect) :=
  let pre : FS × List Effect :=
    match fs dst with
    | some info =>
      if info.isDirNode && !info.isSymlinkNode then
        (applyEffect fs (.removeAll dst), [Effect.removeAll dst])
      else
        (applyEffect fs (.remove dst), [Effect.remove dst])
    | none => (fs, [])
  match pre.1 backupPath with
  | some _ =>
    .ok (applyEffect pre.1 (.rename backupPath dst),
      pre.2 ++ [Effect.rename backupPath dst])
  | none => .error "failed to recover backup"

/-- BackupInfo from the backup file. -/
structure BackupInfo where
  originalName : String
  backupPath : String
  timestamp : String
  deriving Repr, DecidableEq

/-- FindBackups (backup file): os.ReadDir the directory (an error yields the
empty list); keep the immediate entries whose name has the literal prefix
filename ++ ".backup.", taking the rest of the name as the timestamp with no
validation; sort by timestamp descending. The ReadDir outcome is passed in
as an optional list of entry names. -/
def FindBackups (entries : Option (List String)) (dir filename : String) :
    List BackupInfo :=
  match entries with
  | none => []
  | some names =>
    let pre := filename ++ ".backup."
    let backups := names.filterMap (fun name =>
      if pre.data.isPrefixOf name.data then
        some { originalName := filename
               backupPath := dir ++ "/" ++ name
               timestamp := ⟨name.data.drop pre.data.length⟩ : BackupInfo }
      else none)
    List.insertionSort (fun a b => b.timestamp ≤ a.timestamp) backups

/-- The linear scan of selectBackup: first entry whose timestamp equals the
requested one. -/
def selectLoop (ts : String) : List BackupInfo → Option BackupInfo
  | [] => none
  | b :: bs => if b.timestamp = ts then some b else selectLoop ts bs

/-- selectBackup (backup file): an empty list is the "no backups found"
error; the selector "latest" returns the first entry; any other selector is
matched by the linear scan, with a miss reported as an error naming the
requested timestamp. -/
def selectBackup (backups : List BackupInfo) (timestamp : String) :
    Except String BackupInfo :=
  match backups with
  | [] => .error "no backups found"
  | b :: bs =>
    if timestamp = "latest" then .ok b
    else
      match selectLoop timestamp (b :: bs) with
      | some x => .ok x
      | none => .error ("no backup found with timestamp " ++ timestamp)

mutual
/-- A directory tree for the directory copier: regular files carry byte
content and mode, directories carry mode and named children (symbolic links
and special files inside a copied tree are out of the engine's scope). -/
inductive FsTree where
  | file (content : List Nat) (mode : Nat)
  | dir (mode : Nat) (children : Entries)
/-- Named children of a directory, in ReadDir order. -/
inductive Entries where
  | nil
  | cons (name : String) (child : FsTree) (rest : Entries)
end

/-- The node copyFile (import.go) produces at a fresh destination: the
source bytes, written through a descriptor created with the source mode. -/
def copyFileTree (content : List Nat) (mode : Nat) : FsTree :=
  .file content mode

mutual
/-- copyDirectory (import.go): Stat the source (a non-directory makes the
subsequent ReadDir fail), MkdirAll the destination with the source mode,
then per child recurse for directories and copyFile for files. -/
def copyDirectory : FsTree → Option FsTree
  | .file _ _ => none
  | .dir m children =>
    match copyEntries children with
    | some cs => some (.dir m cs)
    | none => none

/-- The child loop of copyDirectory. -/
def copyEntries : Entries → Option Entries
  | .nil => some .nil
  | .cons name (.file c md) rest =>
    match copyEntries rest with
    | some r => some (.cons name (copyFileTree c md) r)
    | none => none
  | .cons name (.dir cm cc) rest =>
    match copyDirectory (.dir cm cc), copyEntries rest with
    | some child, some r => some (.cons name child r)
    | _, _ => none
end

/-- Find a named child. -/
def findEntry : Entries → String → Option FsTree
  | .nil, _ => none
  | .cons n c rest, name => if n = name then some c else findEntry rest name

/-- The subtree of a tree at a relative path (a list of component names). -/
def lookupTree : FsTree → List String → Option FsTree
  | t, [] => some t
  | .file _ _, _ :: _ => none
  | .dir _ cs, n :: p =>
    match findEntry cs n with
    | some c => lookupTree c p
    | none => none

/-- Permission mode at a tree root. -/
def treeMode : FsTree → Nat
  | .file _ m => m
  | .dir m _ => m

/-- A sample wall-clock instant used by concrete evaluations. -/
def sampleTime : GoTime :=
  ⟨2026, 2, 15, 7, 10, 45⟩

/-- A filesystem whose destination path holds a plain (non-symlink)
directory. -/
def fsDirAtDst : FS :=
  fun p => if p = "/home/u/.config" then some (Node.dirNode 493) else none

/-- A filesystem whose source path holds a directory. -/
def fsDirAtSrc : FS :=
  fun p => if p = "/repo/.vim" then some (Node.dirNode 493) else none

/-- A filesystem whose source path holds a plain file. -/
def fsFileAtSrc : FS :=
  fun p => if p = "/repo/.vimrc" then some (Node.file [104] 420) else none

/-- A filesystem holding a backup file next to a symlinked destination, as
left behind by a backup-enabled symlink deployment over a plain file. -/
def fsWithBackup : FS :=
  fun p =>
    if p = "/home/u/.vimrc.backup.20260215071045" then some (Node.file [104, 105] 420)
    else if p = "/home/u/.vimrc" then some (Node.symlinkNode "/repo/.vimrc") else none

/-- A filesystem whose destination path holds a plain file. -/
def fsFileAtDst : FS :=
  fun p => if p = "/home/u/.zshrc" then some (Node.file [122] 420) else none

/-- An oracle under which every os call fails — in particular the backup
rename. -/
def allCallsFail : Effect → Bool :=
  fun _ => false

/-! ## Helper lemmas -/

theorem natDigits_length (w : Nat) : ∀ n, (natDigits w n).length = w := by
  induction w with
  | zero => intro n; rfl
  | succ w ih =>
    intro n
    simp [natDigits, ih]

theorem natDigits_isDigit (w : Nat) : ∀ n, ∀ c ∈ natDigits w n, c.isDigit = true := by
  induction w with
  | zero => intro n c hc; simp [natDigits] at hc
  | succ w ih =>
    intro n c hc
    simp only [natDigits, List.mem_append, List.mem_singleton] at hc
    rcases hc with hc | hc
    · exact ih _ c hc
    · subst hc
      have h10 : n % 10 < 10 := Nat.mod_lt _ (by omega)
      revert h10
      generalize n % 10 = d
      revert d
      decide

theorem goTimestamp_length (t : GoTime) : (goTimestamp t).length = 14 := by
  simp [goTimestamp, String.length, natDigits_length]

theorem goTimestamp_isDigit (t : GoTime) : ∀ c ∈ (goTimestamp t).data, c.isDigit = true := by
  intro c hc
  simp only [goTimestamp, List.mem_append] at hc
  rcases hc with ((((hc | hc) | hc) | hc) | hc) | hc <;> exact natDigits_isDigit _ _ c hc

theorem dropWhile_append_of_forall {p : Char → Bool} :
    ∀ (xs ys : List Char), (∀ x ∈ xs, p x = true) →
      List.dropWhile p (xs ++ ys) = List.dropWhile p ys := by
  intro xs ys h
  induction xs with
  | nil => rfl
  | cons x xs ih =>
    simp only [List.cons_append, List.dropWhile_cons, h x (by simp)]
    exact ih (fun a ha => h a (by simp [ha]))

theorem dirString_append_of_noslash (d s : String)
    (h : ∀ c ∈ s.data, c ≠ '/') : dirString (d ++ s) = dirString d := by
  have hd : (d ++ s).data = d.data ++ s.data := String.data_append d s
  simp only [dirString, dirData, hd, List.reverse_append]
  rw [dropWhile_append_of_forall]
  intro x hx
  simp only [List.mem_reverse] at hx
  simpa using h x hx

theorem selectLoop_eq_find (ts : String) :
    ∀ l : List BackupInfo, selectLoop ts l = l.find? (fun e => e.timestamp == ts) := by
  intro l
  induction l with
  | nil => rfl
  | cons b bs ih =>
    simp only [selectLoop, List.find?_cons]
    by_cases hb : b.timestamp = ts
    · simp [hb]
    · simp only [if_neg hb, ih]
      have : (b.timestamp == ts) = false := beq_false_of_ne hb
      simp [this]

/-- C3: FindBackups returns exactly the immediate entries of the directory
whose names carry the literal prefix originalName ++ ".backup.", the rest of
the name taken as the timestamp without validation, sorted descending by
lexicographic timestamp comparison; the head of a non-empty result has the
greatest timestamp. -/
theorem FindBackups_spec (dir fn : String) (names : List String) :
    (∀ b, b ∈ FindBackups (some names) dir fn ↔
      ∃ name, name ∈ names ∧ (fn ++ ".backup.").data.isPrefixOf name.data = true ∧
        b = ⟨fn, dir ++ "/" ++ name, ⟨name.data.drop (fn ++ ".backup.").data.length⟩⟩) ∧
    (FindBackups (some names) dir fn).Sorted (fun a b => b.timestamp ≤ a.timestamp) ∧
    (∀ x, (FindBackups (some names) dir fn).head? = some x →
      ∀ b ∈ FindBackups (some names) dir fn, b.timestamp ≤ x.timestamp) := by
  haveI htot : IsTotal BackupInfo (fun a b => b.timestamp ≤ a.timestamp) :=
    ⟨fun a b => le_total b.timestamp a.timestamp⟩
  haveI htr : IsTrans BackupInfo (fun a b => b.timestamp ≤ a.timestamp) :=
    ⟨fun _ _ _ hab hbc => le_trans hbc hab⟩
  have hsorted : (FindBackups (some names) dir fn).Sorted
      (fun a b => b.timestamp ≤ a.timestamp) := by
    simp only [FindBackups]
    exact List.sorted_insertionSort _ _
  refine ⟨?_, hsorted, ?_⟩
  · intro b
    simp only [FindBackups, List.mem_insertionSort, List.mem_filterMap]
    constructor
    · rintro ⟨name, hname, hf⟩
      by_cases hp : (fn ++ ".backup.").data.isPrefixOf name.data = true
      · rw [if_pos hp] at hf
        exact ⟨name, hname, hp, (Option.some.injEq _ _ ▸ hf).symm⟩
      · rw [if_neg hp] at hf
        exact absurd hf (by simp)
    · rintro ⟨name, hname, hp, hb⟩
      refine ⟨name, hname, ?_⟩
      rw [if_pos hp, hb]
  · intro x hx b hb
    cases hres : FindBackups (some names) dir fn with
    | nil => rw [hres] at hb; simp at hb
    | cons y ys =>
      rw [hres] at hx hb hsorted
      simp only [List.head?_cons, Option.some.injEq] at hx
      subst hx
      rcases List.mem_cons.mp hb with hb | hb
      · subst hb; exact le_refl _
      · exact (List.sorted_cons.mp hsorted).1 b hb

/-- C4 counterexample: on the empty entry list with a non-latest selector,
selectBackup returns the generic "no backups found" error, whose message does
not name (does not even contain) the requested timestamp. -/
theorem selectBackup_empty_not_named :
    selectBackup [] "99999999999999" = .error "no backups found" ∧
    ¬("99999999999999".data <:+: "no backups found".data) := by
  constructor
  · rfl
  · decide

/-- C4 (amended): selectBackup on an empty list returns the generic
"no backups found" error for every selector (in particular for "latest");
on a non-empty list, "latest" returns the entry at index 0; a non-latest
selector is matched by exact string equality, returning the first match, and
on a non-empty list with no match the error names the requested timestamp. -/
theorem selectBackup_spec (sel : String) (backups : List BackupInfo) :
    selectBackup [] sel = .error "no backups found" ∧
    (∀ b bs, backups = b :: bs → selectBackup backups "latest" = .ok b) ∧
    (sel ≠ "latest" →
      (∀ x, backups.find? (fun e => e.timestamp == sel) = some x →
        selectBackup backups sel = .ok x) ∧
      (backups ≠ [] → backups.find? (fun e => e.timestamp == sel) = none →
        selectBackup backups sel = .error ("no backup found with timestamp " ++ sel))) := by
  refine ⟨rfl, ?_, ?_⟩
  · rintro b bs rfl
    simp [selectBackup]
  · intro hsel
    constructor
    · intro x hx
      cases backups with
      | nil => simp at hx
      | cons b bs =>
        simp only [selectBackup, if_neg hsel, selectLoop_eq_find, hx]
    · intro hne hnone
      cases backups with
      | nil => exact absurd rfl hne
      | cons b bs =>
        simp only [selectBackup, if_neg hsel, selectLoop_eq_find, hnone]

/-- C4 witness: concrete instantiation of the amended selectBackup theorem,
discharging its hypotheses at a two-entry list. -/
theorem selectBackup_spec_witness :
    selectBackup [⟨"f", "/h/f.backup.2", "2"⟩, ⟨"f", "/h/f.backup.1", "1"⟩] "latest"
      = .ok ⟨"f", "/h/f.backup.2", "2"⟩ ∧
    selectBackup [⟨"f", "/h/f.backup.2", "2"⟩, ⟨"f", "/h/f.backup.1", "1"⟩] "1"
      = .ok ⟨"f", "/h/f.backup.1", "1"⟩ ∧
    selectBackup [⟨"f", "/h/f.backup.2", "2"⟩, ⟨"f", "/h/f.backup.1", "1"⟩] "3"
      = .error ("no backup found with timestamp " ++ "3") := by
  refine ⟨?_, ?_, ?_⟩
  · exact (selectBackup_spec "latest"
      [⟨"f", "/h/f.backup.2", "2"⟩, ⟨"f", "/h/f.backup.1", "1"⟩]).2.1 _ _ rfl
  · exact ((selectBackup_spec "1"
      [⟨"f", "/h/f.backup.2", "2"⟩, ⟨"f", "/h/f.backup.1", "1"⟩]).2.2 (by decide)).1 _ (by decide)
  · exact ((selectBackup_spec "3"
      [⟨"f", "/h/f.backup.2", "2"⟩, ⟨"f", "/h/f.backup.1", "1"⟩]).2.2 (by decide)).2
      (by decide) (by decide)

/-- C10: a directory that cannot be read (os.ReadDir error, in particular a
directory that does not exist) makes FindBackups return the empty list, not
an error — indistinguishable from a readable directory with no entries. -/
theorem FindBackups_unreadable (dir fn : String) :
    FindBackups none dir fn = [] ∧ FindBackups (some []) dir fn = [] :=
  ⟨rfl, rfl⟩

/-- C1: dry-run/apply parity — for every destination state (absent, symlink,
plain non-symlink entry) and every method/backup flag combination, the effect
trace that apply mode actually issues (importFile for file mappings,
importDirectory for directory mappings) is exactly the trace promised by the
action string the dry-run decision block predicts for that same state. -/
theorem dryRun_apply_parity (fs : FS) (src dst : String) (sym bak : Bool)
    (now : GoTime) :
    importFileEffects fs src dst sym bak now =
      specPromisedFileEffects (dryRunAction fs dst sym bak) src dst sym (goTimestamp now) ∧
    importDirectoryEffects fs src dst sym bak now =
      specPromisedDirEffects (dryRunAction fs dst sym bak) src dst sym (goTimestamp now) := by
  cases hd : fs dst with
  | none =>
    cases sym <;> cases bak <;>
      simp [importFileEffects, importDirectoryEffects, dryRunAction,
        specPromisedFileEffects, specPromisedDirEffects, methodName,
        deployFileEffect, deployDirEffect, hd]
  | some info =>
    cases info <;> cases sym <;> cases bak <;>
      simp [importFileEffects, importDirectoryEffects, dryRunAction,
        specPromisedFileEffects, specPromisedDirEffects, methodName,
        deployFileEffect, deployDirEffect, hd, Node.isSymlinkNode]

theorem isDigit_ne_slash (c : Char) (h : c.isDigit = true) : c ≠ '/' := by
  intro hc
  subst hc
  exact absurd h (by decide)

theorem rename_mem_importFileEffects_iff (fs : FS) (src dst : String) (sym bak : Bool)
    (now : GoTime) (a b : String) :
    Effect.rename a b ∈ importFileEffects fs src dst sym bak now ↔
      (a = dst ∧ b = dst ++ ".backup." ++ goTimestamp now ∧ bak = true ∧
        ∃ n, fs dst = some n ∧ n.isSymlinkNode = false) := by
  cases hd : fs dst with
  | none => cases sym <;> simp [importFileEffects, hd]
  | some info =>
    cases info <;> cases sym <;> cases bak <;>
      simp [importFileEffects, hd, Node.isSymlinkNode, and_assoc]

theorem rename_mem_importDirectoryEffects_iff (fs : FS) (src dst : String) (sym bak : Bool)
    (now : GoTime) (a b : String) :
    Effect.rename a b ∈ importDirectoryEffects fs src dst sym bak now ↔
      (a = dst ∧ b = dst ++ ".backup." ++ goTimestamp now ∧ bak = true ∧
        ∃ n, fs dst = some n ∧ n.isSymlinkNode = false) := by
  cases hd : fs dst with
  | none => cases sym <;> simp [importDirectoryEffects, hd]
  | some info =>
    cases info <;> cases sym <;> cases bak <;>
      simp [importDirectoryEffects, hd, Node.isSymlinkNode, and_assoc]

/-- C2: in apply mode a backup rename is issued if and only if the
destination exists, is not a symbolic link, and backup is enabled (for file
and directory mappings alike); the only rename ever issued moves the
destination to destination ++ ".backup." ++ timestamp, a sibling of the
destination, with a 14-character all-digit fixed-width YYYYMMDDHHMMSS
timestamp; a symlink destination is removed directly first and never backed
up, even with backup enabled. -/
theorem backup_policy (fs : FS) (src dst : String) (sym bak : Bool) (now : GoTime) :
    (Effect.rename dst (dst ++ ".backup." ++ goTimestamp now) ∈
        importFileEffects fs src dst sym bak now ↔
      bak = true ∧ ∃ n, fs dst = some n ∧ n.isSymlinkNode = false) ∧
    (Effect.rename dst (dst ++ ".backup." ++ goTimestamp now) ∈
        importDirectoryEffects fs src dst sym bak now ↔
      bak = true ∧ ∃ n, fs dst = some n ∧ n.isSymlinkNode = false) ∧
    (∀ a b, Effect.rename a b ∈ importFileEffects fs src dst sym bak now →
      a = dst ∧ b = dst ++ ".backup." ++ goTimestamp now) ∧
    (∀ a b, Effect.rename a b ∈ importDirectoryEffects fs src dst sym bak now →
      a = dst ∧ b = dst ++ ".backup." ++ goTimestamp now) ∧
    (goTimestamp now).length = 14 ∧
    (∀ c ∈ (goTimestamp now).data, c.isDigit = true) ∧
    dirString (dst ++ ".backup." ++ goTimestamp now) = dirString dst ∧
    (∀ t, fs dst = some (Node.symlinkNode t) →
      (importFileEffects fs src dst sym bak now).head? = some (Effect.remove dst) ∧
      (importDirectoryEffects fs src dst sym bak now).head? = some (Effect.remove dst)) := by
  refine ⟨?_, ?_, ?_, ?_, goTimestamp_length now, goTimestamp_isDigit now, ?_, ?_⟩
  · rw [rename_mem_importFileEffects_iff]
    simp
  · rw [rename_mem_importDirectoryEffects_iff]
    simp
  · intro a b h
    have := (rename_mem_importFileEffects_iff fs src dst sym bak now a b).mp h
    exact ⟨this.1, this.2.1⟩
  · intro a b h
    have := (rename_mem_importDirectoryEffects_iff fs src dst sym bak now a b).mp h
    exact ⟨this.1, this.2.1⟩
  · have hassoc : dst ++ ".backup." ++ goTimestamp now =
        dst ++ (".backup." ++ goTimestamp now) := by
      apply String.ext
      simp [String.data_append, List.append_assoc]
    rw [hassoc]
    apply dirString_append_of_noslash
    intro c hc
    rw [String.data_append] at hc
    rcases List.mem_append.mp hc with hc | hc
    · have hlist : (".backup." : String).data = ['.', 'b', 'a', 'c', 'k', 'u', 'p', '.'] := rfl
      rw [hlist] at hc
      fin_cases hc <;> decide
    · exact isDigit_ne_slash c (goTimestamp_isDigit now c hc)
  · intro t ht
    constructor <;>
      simp [importFileEffects, importDirectoryEffects, ht, Node.isSymlinkNode]

/-- C5 counterexample: a file mapping whose destination is an existing plain
directory, with backup disabled, is removed with os.Remove (a non-recursive
unlink/rmdir, which fails on a non-empty directory) — not with the recursive
os.RemoveAll the claim asserts for every mapping kind. -/
theorem importFile_remove_not_recursive :
    importFileEffects fsDirAtDst "/repo/.config" "/home/u/.config" false false sampleTime =
      [Effect.remove "/home/u/.config", Effect.mkdirAll (dirString "/home/u/.config"),
        Effect.copyFileTo "/repo/.config" "/home/u/.config"] ∧
    Effect.removeAll "/home/u/.config" ∉
      importFileEffects fsDirAtDst "/repo/.config" "/home/u/.config" false false sampleTime := by
  constructor
  · rfl
  · decide

/-- C5 (amended): with the destination existing, not a symlink, and backup
disabled, the existing entry is removed outright before deployment — but the
removal primitive depends on the mapping kind, not on the destination kind:
a file mapping issues os.Remove (unlink/rmdir, non-recursive), a directory
mapping issues os.RemoveAll (recursive delete). -/
theorem remove_policy (fs : FS) (src dst : String) (sym : Bool) (now : GoTime)
    (n : Node) (hd : fs dst = some n) (hsym : n.isSymlinkNode = false) :
    (importFileEffects fs src dst sym false now).head? = some (Effect.remove dst) ∧
    (importDirectoryEffects fs src dst sym false now).head? =
      some (Effect.removeAll dst) := by
  constructor <;> simp [importFileEffects, importDirectoryEffects, hd, hsym]

/-- C5 witness: the amended removal policy evaluated at a concrete directory
destination. -/
theorem remove_policy_witness :
    (importFileEffects fsDirAtDst "/repo/.config" "/home/u/.config" false false
        sampleTime).head? = some (Effect.remove "/home/u/.config") ∧
    (importDirectoryEffects fsDirAtDst "/repo/.config" "/home/u/.config" false false
        sampleTime).head? = some (Effect.removeAll "/home/u/.config") :=
  remove_policy fsDirAtDst "/repo/.config" "/home/u/.config" false sampleTime
    (Node.dirNode 493) rfl rfl

/-- C6 counterexample: a file mapping whose source exists but is a directory
is not skipped — Import performs no source-kind check for file mappings and
proceeds to deploy (here: symlink mode), mutating the filesystem. -/
theorem fileMapping_no_kind_check :
    importFileMapping fsDirAtSrc "/repo/.vim" "/home/u/.vim" true false sampleTime =
      .applied [Effect.mkdirAll (dirString "/home/u/.vim"),
        Effect.symlinkTo "/repo/.vim" "/home/u/.vim"] := by
  rfl

/-- C6 (amended): the source-kind check exists only for directory mappings —
a directory mapping whose (non-symlink) source exists but is not a directory
yields the non-fatal skipped outcome "skip (not a directory)", which issues
no filesystem effects; a file mapping whose source exists always proceeds to
the deployment, whatever the source's kind. -/
theorem kind_check (fs : FS) (src dst : String) (sym bak : Bool) (now : GoTime)
    (n : Node) (hsrc : fs src = some n) (hnl : n.isSymlinkNode = false) :
    (n.isDirNode = false →
      importDirectoryMapping fs src dst sym bak now = .skipped "skip (not a directory)") ∧
    importFileMapping fs src dst sym bak now =
      .applied (importFileEffects fs src dst sym bak now) := by
  constructor
  · intro hnd
    simp [importDirectoryMapping, hsrc, hnd]
  · simp [importFileMapping, hsrc]

/-- C6 witness: the amended kind-check behaviour evaluated at a concrete
plain-file source. -/
theorem kind_check_witness :
    importDirectoryMapping fsFileAtSrc "/repo/.vimrc" "/home/u/.vimrc" true true
        sampleTime = .skipped "skip (not a directory)" ∧
    importFileMapping fsFileAtSrc "/repo/.vimrc" "/home/u/.vimrc" true true sampleTime =
      .applied (importFileEffects fsFileAtSrc "/repo/.vimrc" "/home/u/.vimrc" true true
        sampleTime) :=
  ⟨(kind_check fsFileAtSrc "/repo/.vimrc" "/home/u/.vimrc" true true sampleTime
      (Node.file [104] 420) rfl rfl).1 rfl,
    (kind_check fsFileAtSrc "/repo/.vimrc" "/home/u/.vimrc" true true sampleTime
      (Node.file [104] 420) rfl rfl).2⟩

theorem recoverFile_fails_of_missing (fs : FS) (backupPath dst : String)
    (h : fs backupPath = none) (hne : backupPath ≠ dst) :
    ∀ r, recoverFile fs backupPath dst ≠ .ok r := by
  intro r
  cases hd : fs dst with
  | none =>
    simp [recoverFile, hd, h]
  | some d =>
    by_cases hc : (d.isDirNode && !d.isSymlinkNode) = true
    · simp [recoverFile, hd, hc, applyEffect, if_neg hne, h]
    · simp [recoverFile, hd, hc, applyEffect, if_neg hne, h]

/-- C7: after a successful Recover, the destination holds the backup's
former node (its original content), the backup artifact is gone, and a
second recovery from the same backup path fails — recovery consumes the
generation; before the rename an existing destination is removed, with
os.RemoveAll when it is a directory (a non-symlink node) and os.Remove (a
single link/file) otherwise. -/
theorem recover_roundtrip (fs : FS) (backupPath dst : String) (b : Node)
    (hb : fs backupPath = some b) (hne : backupPath ≠ dst) :
    ∃ fs1 trace, recoverFile fs backupPath dst = .ok (fs1, trace) ∧
      fs1 dst = some b ∧
      fs1 backupPath = none ∧
      (∀ d, fs dst = some d → d.isDirNode = true →
        trace = [Effect.removeAll dst, Effect.rename backupPath dst]) ∧
      (∀ d, fs dst = some d → d.isDirNode = false →
        trace = [Effect.remove dst, Effect.rename backupPath dst]) ∧
      (fs dst = none → trace = [Effect.rename backupPath dst]) ∧
      (∀ r, recoverFile fs1 backupPath dst ≠ .ok r) := by
  cases hd : fs dst with
  | none =>
    refine ⟨applyEffect fs (.rename backupPath dst), [Effect.rename backupPath dst],
      ?_, ?_, ?_, ?_, ?_, ?_, ?_⟩
    · simp [recoverFile, hd, hb]
    · simp [applyEffect, hb]
    · simp [applyEffect, if_neg hne]
    · intro d hcontra
      simp at hcontra
    · intro d hcontra
      simp at hcontra
    · intro _
      rfl
    · exact recoverFile_fails_of_missing _ _ _ (by simp [applyEffect, if_neg hne]) hne
  | some d0 =>
    cases hdir : d0.isDirNode with
    | true =>
      have hsl : d0.isSymlinkNode = false := by
        cases d0 <;> simp_all [Node.isDirNode, Node.isSymlinkNode]
      refine ⟨applyEffect (applyEffect fs (.removeAll dst)) (.rename backupPath dst),
        [Effect.removeAll dst, Effect.rename backupPath dst], ?_, ?_, ?_, ?_, ?_, ?_, ?_⟩
      · simp [recoverFile, hd, hdir, hsl, applyEffect, if_neg hne, hb]
      · simp [applyEffect, if_neg hne, hb]
      · simp [applyEffect, if_neg hne]
      · intro d _ _
        rfl
      · intro d hsome hfalse
        injection hsome with hdd
        subst hdd
        simp [hdir] at hfalse
      · intro hcontra
        simp at hcontra
      · exact recoverFile_fails_of_missing _ _ _
          (by simp [applyEffect, if_neg hne]) hne
    | false =>
      refine ⟨applyEffect (applyEffect fs (.remove dst)) (.rename backupPath dst),
        [Effect.remove dst, Effect.rename backupPath dst], ?_, ?_, ?_, ?_, ?_, ?_, ?_⟩
      · simp [recoverFile, hd, hdir, applyEffect, if_neg hne, hb]
      · simp [applyEffect, if_neg hne, hb]
      · simp [applyEffect, if_neg hne]
      · intro d hsome htrue
        injection hsome with hdd
        subst hdd
        simp [hdir] at htrue
      · intro d _ _
        rfl
      · intro hcontra
        simp at hcontra
      · exact recoverFile_fails_of_missing _ _ _
          (by simp [applyEffect, if_neg hne]) hne

/-- C7 witness: recovery evaluated on a concrete state holding a backup file
next to a symlinked destination. -/
theorem recover_roundtrip_witness :
    ∃ fs1 trace,
      recoverFile fsWithBackup "/home/u/.vimrc.backup.20260215071045" "/home/u/.vimrc" =
        .ok (fs1, trace) ∧
      fs1 "/home/u/.vimrc" = some (Node.file [104, 105] 420) ∧
      fs1 "/home/u/.vimrc.backup.20260215071045" = none := by
  obtain ⟨fs1, trace, h1, h2, h3, _, _, _, _⟩ :=
    recover_roundtrip fsWithBackup "/home/u/.vimrc.backup.20260215071045" "/home/u/.vimrc"
      (Node.file [104, 105] 420) rfl (by decide)
  exact ⟨fs1, trace, h1, h2, h3⟩

/-- C9: with backup enabled and an existing non-symlink destination, the
backup rename is the very first effect importFile and importDirectory issue;
when that os.Rename call fails, the run aborts with no effect applied and
the filesystem — in particular the destination entry — unchanged. -/
theorem backup_failure_atomic (fs : FS) (src dst : String) (sym : Bool) (now : GoTime)
    (n : Node) (ok : Effect → Bool)
    (hd : fs dst = some n) (hsym : n.isSymlinkNode = false)
    (hfail : ok (Effect.rename dst (dst ++ ".backup." ++ goTimestamp now)) = false) :
    (importFileEffects fs src dst sym true now).head? =
      some (Effect.rename dst (dst ++ ".backup." ++ goTimestamp now)) ∧
    runEffects ok fs (importFileEffects fs src dst sym true now) = (fs, [], false) ∧
    (importDirectoryEffects fs src dst sym true now).head? =
      some (Effect.rename dst (dst ++ ".backup." ++ goTimestamp now)) ∧
    runEffects ok fs (importDirectoryEffects fs src dst sym true now) = (fs, [], false) := by
  have hf : importFileEffects fs src dst sym true now =
      Effect.rename dst (dst ++ ".backup." ++ goTimestamp now) ::
        (Effect.mkdirAll (dirString dst) ::
          (if sym then [Effect.symlinkTo src dst] else [Effect.copyFileTo src dst])) := by
    simp [importFileEffects, hd, hsym]
  have hdirf : importDirectoryEffects fs src dst sym true now =
      Effect.rename dst (dst ++ ".backup." ++ goTimestamp now) ::
        (Effect.mkdirAll (dirString dst) ::
          (if sym then [Effect.symlinkTo src dst] else [Effect.copyDirTo src dst])) := by
    simp [importDirectoryEffects, hd, hsym]
  refine ⟨?_, ?_, ?_, ?_⟩
  · rw [hf]; rfl
  · rw [hf]
    simp [runEffects, hfail]
  · rw [hdirf]; rfl
  · rw [hdirf]
    simp [runEffects, hfail]

/-- C9 witness: the atomicity theorem evaluated at a concrete plain-file
destination under an oracle failing every call. -/
theorem backup_failure_atomic_witness :
    (importFileEffects fsFileAtDst "/repo/.zshrc" "/home/u/.zshrc" true true
        sampleTime).head? =
      some (Effect.rename "/home/u/.zshrc"
        ("/home/u/.zshrc" ++ ".backup." ++ goTimestamp sampleTime)) ∧
    runEffects allCallsFail fsFileAtDst
        (importFileEffects fsFileAtDst "/repo/.zshrc" "/home/u/.zshrc" true true sampleTime) =
      (fsFileAtDst, [], false) ∧
    (importDirectoryEffects fsFileAtDst "/repo/.zshrc" "/home/u/.zshrc" true true
        sampleTime).head? =
      some (Effect.rename "/home/u/.zshrc"
        ("/home/u/.zshrc" ++ ".backup." ++ goTimestamp sampleTime)) ∧
    runEffects allCallsFail fsFileAtDst
        (importDirectoryEffects fsFileAtDst "/repo/.zshrc" "/home/u/.zshrc" true true
          sampleTime) =
      (fsFileAtDst, [], false) :=
  backup_failure_atomic fsFileAtDst "/repo/.zshrc" "/home/u/.zshrc" true sampleTime
    (Node.file [122] 420) allCallsFail rfl rfl rfl

theorem copyEntries_eq : (l : Entries) → copyEntries l = some l
  | .nil => rfl
  | .cons name (.file c md) rest => by
    rw [copyEntries, copyEntries_eq rest]
    rfl
  | .cons name (.dir cm cc) rest => by
    rw [copyEntries, copyDirectory, copyEntries_eq cc, copyEntries_eq rest]

/-- C8: for every source directory tree, copyDirectory reproduces the tree
in full — the destination root carries the source directory's mode, and
every relative path resolves to the same subtree as in the source, so every
file of the subtree appears at its matching relative path with byte-identical
content and the source file's mode, with every sub-directory recursed. -/
theorem copyDirectory_fidelity (m : Nat) (cs : Entries) :
    ∃ t, copyDirectory (FsTree.dir m cs) = some t ∧
      treeMode t = m ∧
      (∀ p : List String, lookupTree t p = lookupTree (FsTree.dir m cs) p) := by
  refine ⟨FsTree.dir m cs, ?_, rfl, fun _ => rfl⟩
  rw [copyDirectory, copyEntries_eq cs]
